import Mathlib

/-!
Shallow embedding of the two interactive components of the repository:
the tab group (`sl-tab-group`) and the tooltip (`sl-tooltip`), together
with theorems about their state machines.

Conventions of the embedding:
* JavaScript object identity (`===` on DOM elements) is modelled by a
  numeric `id` field: two distinct DOM nodes never compare `===`, so each
  node carries a distinct `id`.
* DOM mutation (`el.active = ...`) becomes functional update of the
  component state; event emission becomes an explicit event list returned
  alongside the new state, in emission order.
* The asynchronous tooltip open/close handler is modelled as a trace of
  the observable steps it performs, in program order.
-/

namespace TabGroup

/-- Model of a slotted `sl-tab` element: `id` is JavaScript object
identity, `panel` the tab's panel key, `disabled` and `active` its flags,
`clientWidth`/`clientHeight` its measured box. -/
structure Tab where
  id : Nat
  panel : String
  disabled : Bool
  active : Bool
  clientWidth : Nat
  clientHeight : Nat
deriving DecidableEq

/-- Model of a slotted `sl-tab-panel` element. -/
structure Panel where
  name : String
  active : Bool
deriving DecidableEq

/-- Placement attribute of the tab group. -/
inductive Placement
  | top
  | bottom
  | start
  | end_
deriving DecidableEq

/-- Condition `['top', 'bottom'].includes(this.placement)`. -/
def isHorizontalPlacement (p : Placement) : Bool :=
  p == Placement.top || p == Placement.bottom

/-- Condition `['start', 'end'].includes(this.placement)`. -/
def isVerticalPlacement (p : Placement) : Bool :=
  p == Placement.start || p == Placement.end_

/-- State of one `sl-tab-group`: the slotted tabs in DOM order, the
slotted panels, the placement, and the private `activeTab` reference. -/
structure GroupState where
  slotted : List Tab
  panels : List Panel
  placement : Placement
  activeTab : Option Tab
deriving DecidableEq

/-- Method `getAllTabs()` with its default `includeDisabled: true`:
every slotted tab, in DOM order. -/
def getAllTabs (s : GroupState) : List Tab :=
  s.slotted

/-- The `this.tabs` cache, rebuilt by `syncTabsAndPanels()` as
`getAllTabs({ includeDisabled: false })`: disabled tabs are excluded. -/
def tabs (s : GroupState) : List Tab :=
  s.slotted.filter fun el => !el.disabled

/-- Method `getActiveTab()` = `this.tabs.find(el => el.active)`. -/
def getActiveTab (s : GroupState) : Option Tab :=
  (tabs s).find? fun el => el.active

/-- The `scrollBehavior` option of `setActiveTab`. -/
inductive ScrollBehavior
  | auto
  | smooth
deriving DecidableEq

/-- Options of `setActiveTab`, after the merge with the defaults
`{ emitEvents: true, scrollBehavior: 'auto' }`. -/
structure Options where
  emitEvents : Bool := true
  scrollBehavior : ScrollBehavior := ScrollBehavior.auto
deriving DecidableEq

/-- Events emitted by the tab group (`sl-tab-hide` / `sl-tab-show`),
each carrying a panel name in its detail. -/
inductive TabEvent
  | tabHide (name : String)
  | tabShow (name : String)
deriving DecidableEq

/-- Method `setActiveTab(tab, options)`.  The guard is
`tab !== this.activeTab && !tab.disabled`; on success the non-disabled
cached tabs get `active = (el === tab)`, every panel gets
`active = (el.name === tab.panel)`, and with `emitEvents` an
`sl-tab-hide` for the previous active tab (if any) is emitted before the
`sl-tab-show` for the new one.  Returns the new state and the emitted
events in order. -/
def setActiveTab (s : GroupState) (tab : Tab) (options : Options) :
    GroupState × List TabEvent :=
  if (match s.activeTab with
      | some a => a.id != tab.id
      | none => true) && !tab.disabled then
    let previousTab := s.activeTab
    let slotted := s.slotted.map fun el =>
      if el.disabled then el else { el with active := el.id == tab.id }
    let panels := s.panels.map fun el =>
      { el with active := el.name == tab.panel }
    ({ s with slotted := slotted, panels := panels, activeTab := some tab },
     if options.emitEvents then
       (match previousTab with
        | some p => [TabEvent.tabHide p.panel]
        | none => []) ++ [TabEvent.tabShow tab.panel]
     else [])
  else
    (s, [])

/-- Method `show(panel)`: looks the panel name up in the `this.tabs`
cache (which excludes disabled tabs) and, when a tab is found, activates
it with smooth scroll behavior; otherwise does nothing. -/
def showPanel (s : GroupState) (panel : String) : GroupState × List TabEvent :=
  match (tabs s).find? (fun el => el.panel == panel) with
  | some tab =>
    setActiveTab s tab
      { emitEvents := true, scrollBehavior := ScrollBehavior.smooth }
  | none => (s, [])

/-- Call of `setActiveTab` whose argument is the group's own slotted tab
with object identity `i` (no call happens when no such tab exists). -/
def setActiveTabById (s : GroupState) (i : Nat) (options : Options) :
    GroupState × List TabEvent :=
  match s.slotted.find? (fun el => el.id == i) with
  | some tab => setActiveTab s tab options
  | none => (s, [])

/-- Fold of a sequence of `setActiveTab` calls, each given by the object
identity of its tab argument and its options, over a group state. -/
def applyCalls (s : GroupState) (calls : List (Nat × Options)) : GroupState :=
  calls.foldl (fun s c => (setActiveTabById s c.1 c.2).1) s

/-- Object identities of the slotted tabs, in DOM order. -/
def idsOf (s : GroupState) : List Nat :=
  s.slotted.map Tab.id

/-- State of a freshly connected group: no tab active, no panel active,
no `activeTab` reference. -/
def cleanState (s : GroupState) : Prop :=
  (∀ t ∈ s.slotted, t.active = false) ∧
  (∀ p ∈ s.panels, p.active = false) ∧
  s.activeTab = none

instance (s : GroupState) : Decidable (cleanState s) := by
  unfold cleanState
  exact inferInstance

/-- Inductive coupling between the `activeTab` reference and the
`active` flags that `setActiveTab` maintains. -/
def strongInv (s : GroupState) : Prop :=
  (s.activeTab = none ∧ (∀ t ∈ s.slotted, t.active = false) ∧
    (∀ p ∈ s.panels, p.active = false)) ∨
  (∃ a, s.activeTab = some a ∧
    (∀ t ∈ s.slotted, t.disabled = false → t.active = (t.id == a.id)) ∧
    (∃ t ∈ s.slotted, t.id = a.id ∧ t.panel = a.panel ∧ t.disabled = false) ∧
    (∀ p ∈ s.panels, p.active = (p.name == a.panel)))

/-- The tab/panel invariant of the specification: at most one tab of the
`this.tabs` list is active, and a panel is active exactly when its name
equals the panel key of the active tab (`getActiveTab`); with no active
tab, no panel is active. -/
def tabPanelInvariant (s : GroupState) : Bool :=
  decide (((tabs s).filter fun el => el.active).length ≤ 1) &&
  s.panels.all fun p =>
    p.active == (some p.name == Option.map Tab.panel (getActiveTab s))

/-- Keys handled by the focus-movement part of `handleKeyDown`. -/
inductive Key
  | arrowLeft
  | arrowRight
  | arrowUp
  | arrowDown
  | home
  | endKey
deriving DecidableEq

/-- Index arithmetic of `handleKeyDown`: from the index of the focused
tab in `this.tabs` (a list of length `len`), the index of the tab that
receives focus.  Mirrors the `Home`/`End` branches, the two directional
branches (with the right-to-left swap for horizontal placements), and
the two wrap-around corrections. -/
def nextTabIndex (placement : Placement) (isRtl : Bool) (key : Key)
    (index : Int) (len : Nat) : Int :=
  let index :=
    if key == Key.home then 0
    else if key == Key.endKey then (len : Int) - 1
    else if (isHorizontalPlacement placement &&
              key == (if isRtl then Key.arrowRight else Key.arrowLeft)) ||
            (isVerticalPlacement placement && key == Key.arrowUp) then
      index - 1
    else if (isHorizontalPlacement placement &&
              key == (if isRtl then Key.arrowLeft else Key.arrowRight)) ||
            (isVerticalPlacement placement && key == Key.arrowDown) then
      index + 1
    else index
  let index := if index < 0 then (len : Int) - 1 else index
  if index > (len : Int) - 1 then 0 else index

/-- JavaScript `Array.prototype.indexOf` with `===` comparison: index of
the first occurrence, `-1` when absent. -/
def indexOfTab : List Tab → Tab → Int
  | [], _ => -1
  | el :: rest, tab =>
    if el.id == tab.id then 0
    else
      let r := indexOfTab rest tab
      if r < 0 then -1 else r + 1

/-- JavaScript `Array.prototype.slice(0, e)`: a negative end index
counts from the end of the array. -/
def sliceUpTo (l : List Tab) (e : Int) : List Tab :=
  if e < 0 then l.take (l.length - (-e).toNat) else l.take e.toNat

/-- Accumulator of the `reduce` in `repositionIndicator`. -/
structure Offset where
  left : Nat
  top : Nat
deriving DecidableEq

/-- A CSS size written to the indicator (`${n}px` or `auto`). -/
inductive Dim
  | px (n : Nat)
  | auto
deriving DecidableEq

/-- A CSS transform written to the indicator. -/
inductive Translate
  | x (n : Int)
  | y (n : Int)
deriving DecidableEq

/-- Style written to the indicator element by `repositionIndicator`. -/
structure IndicatorStyle where
  width : Dim
  height : Dim
  transform : Translate
deriving DecidableEq

/-- Visible state of the indicator element after `syncIndicator`. -/
inductive IndicatorState
  | hidden
  | shown (style : IndicatorStyle)
deriving DecidableEq

/-- Method `repositionIndicator()`: `none` models the early return when
there is no current tab; otherwise the style written to the indicator.
The preceding tabs come from `getAllTabs()` (disabled tabs included) up
to the index of the current tab, and their `clientWidth`/`clientHeight`
are summed by a `reduce`. -/
def repositionIndicator (s : GroupState) (isRtl : Bool) :
    Option IndicatorStyle :=
  match getActiveTab s with
  | none => none
  | some currentTab =>
    let width := currentTab.clientWidth
    let height := currentTab.clientHeight
    let allTabs := getAllTabs s
    let precedingTabs := sliceUpTo allTabs (indexOfTab allTabs currentTab)
    let offset := precedingTabs.foldl
      (fun previous current =>
        { left := previous.left + current.clientWidth
          top := previous.top + current.clientHeight })
      ({ left := 0, top := 0 } : Offset)
    match s.placement with
    | Placement.top | Placement.bottom =>
      some { width := Dim.px width, height := Dim.auto
             transform := Translate.x
               (if isRtl then -1 * (offset.left : Int) else (offset.left : Int)) }
    | Placement.start | Placement.end_ =>
      some { width := Dim.auto, height := Dim.px height
             transform := Translate.y (offset.top : Int) }

/-- Method `syncIndicator()`: with an active tab the indicator is shown
(`display: block`) and repositioned, otherwise it is hidden
(`display: none`). -/
def syncIndicator (s : GroupState) (isRtl : Bool) : IndicatorState :=
  match getActiveTab s with
  | some _ =>
    match repositionIndicator s isRtl with
    | some style => IndicatorState.shown style
    | none => IndicatorState.hidden
  | none => IndicatorState.hidden

/-- Indicator style as the specification words it, for the active tab
`t`: the extent along the placement axis is `t`'s own measured extent,
and the translation along that axis is the sum of the measured extents
of all tabs preceding `t` in DOM order, negated in right-to-left
horizontal mode. -/
def specIndicatorStyle (s : GroupState) (isRtl : Bool) (t : Tab) :
    IndicatorStyle :=
  if isHorizontalPlacement s.placement then
    { width := Dim.px t.clientWidth, height := Dim.auto
      transform := Translate.x ((if isRtl then -1 else 1) *
        ((((getAllTabs s).takeWhile fun el => el.id != t.id).map
            Tab.clientWidth).sum : Int)) }
  else
    { width := Dim.auto, height := Dim.px t.clientHeight
      transform := Translate.y
        ((((getAllTabs s).takeWhile fun el => el.id != t.id).map
            Tab.clientHeight).sum : Int) }

end TabGroup

namespace Tooltip

/-- Elements of the tooltip that animations act on: `this.body` and
`this.popup.popup` (the popup's internal visual container). -/
inductive Elem
  | body
  | popupPopup
deriving DecidableEq

/-- Animation registry keys used by the tooltip. -/
inductive AnimationName
  | tooltipShow
  | tooltipHide
deriving DecidableEq

/-- Observable steps performed by the tooltip's open/close handler, in
program order: event emissions, `stopAnimations`/`animateTo` calls with
their target element, and the body/popup state writes. -/
inductive Action
  | emitShow
  | emitAfterShow
  | emitHide
  | emitAfterHide
  | stopAnimationsOn (el : Elem)
  | setBodyHidden (b : Bool)
  | setPopupActive (b : Bool)
  | animateTo (el : Elem) (animation : AnimationName)
deriving DecidableEq

/-- State of one `sl-tooltip`: the `open` and `disabled` properties, the
hidden flag of the body element, and the popup's `active` flag. -/
structure TooltipState where
  open' : Bool
  disabled : Bool
  bodyHidden : Bool
  popupActive : Bool
deriving DecidableEq

/-- Watcher `handleOpenChange()`.  Opening aborts when `disabled`;
otherwise it emits `sl-show`, stops animations on `this.body`, unhides
the body, activates the popup, animates `this.popup.popup` with the
`tooltip.show` animation and emits `sl-after-show`.  Closing emits
`sl-hide`, stops animations on `this.body`, animates `this.popup.popup`
with `tooltip.hide`, deactivates the popup, hides the body and emits
`sl-after-hide`.  Returns the settled state and the trace of steps. -/
def handleOpenChange (s : TooltipState) : TooltipState × List Action :=
  if s.open' then
    if s.disabled then
      (s, [])
    else
      ({ s with bodyHidden := false, popupActive := true },
       [Action.emitShow, Action.stopAnimationsOn Elem.body,
        Action.setBodyHidden false, Action.setPopupActive true,
        Action.animateTo Elem.popupPopup AnimationName.tooltipShow,
        Action.emitAfterShow])
  else
    ({ s with popupActive := false, bodyHidden := true },
     [Action.emitHide, Action.stopAnimationsOn Elem.body,
      Action.animateTo Elem.popupPopup AnimationName.tooltipHide,
      Action.setPopupActive false, Action.setBodyHidden true,
      Action.emitAfterHide])

/-- Method `show()`: returns at once when already open, otherwise sets
`open = true`, which triggers the `open` watcher. -/
def show' (s : TooltipState) : TooltipState × List Action :=
  if s.open' then (s, [])
  else handleOpenChange { s with open' := true }

/-- Method `hide()`: returns at once when already closed, otherwise sets
`open = false`, which triggers the `open` watcher. -/
def hide' (s : TooltipState) : TooltipState × List Action :=
  if !s.open' then (s, [])
  else handleOpenChange { s with open' := false }

/-- Watcher `handleDisabledChange()`: run after `disabled` changes;
calls `hide()` when the tooltip is disabled while open. -/
def handleDisabledChange (s : TooltipState) : TooltipState × List Action :=
  if s.disabled && s.open' then hide' s else (s, [])

/-- Two consecutive `show()` calls, with the concatenated traces. -/
def showTwice (s : TooltipState) : TooltipState × List Action :=
  let r1 := show' s
  let r2 := show' r1.1
  (r2.1, r1.2 ++ r2.2)

end Tooltip

namespace TabGroup

/-- Concrete group used in witnesses: two enabled tabs, two panels, all
inactive. -/
def demoGroup : GroupState :=
  ⟨[⟨0, "a", false, false, 10, 10⟩, ⟨1, "b", false, false, 12, 12⟩],
   [⟨"a", false⟩, ⟨"b", false⟩], Placement.top, none⟩

/-- Concrete call sequence used in witnesses. -/
def demoCalls : List (Nat × Options) :=
  [(1, {}), (0, {}), (0, {})]

/-- Concrete group used in counterexamples: one enabled tab for panel
`a` and the panel `a` itself, all inactive. -/
def cexGroup : GroupState :=
  ⟨[⟨0, "a", false, false, 10, 10⟩], [⟨"a", false⟩], Placement.top, none⟩

/-- A tab that is not one of `cexGroup`'s slotted tabs (a distinct DOM
node, e.g. an `sl-tab` placed in the default slot of the same group),
not disabled, whose panel key matches `cexGroup`'s panel. -/
def foreignTab : Tab :=
  ⟨1, "a", false, false, 10, 10⟩

/-- Concrete group used in the indicator witness: a disabled tab
followed by the active tab, horizontal placement. -/
def indicatorGroup : GroupState :=
  ⟨[⟨0, "a", true, false, 5, 7⟩, ⟨1, "b", false, true, 11, 13⟩],
   [⟨"a", false⟩, ⟨"b", true⟩], Placement.top, none⟩

/-- Concrete group used in the event-order witness: tab `0` is the
active tab, tab `1` is about to be activated. -/
def eventGroup : GroupState :=
  ⟨[⟨0, "a", false, true, 4, 4⟩, ⟨1, "b", false, false, 4, 4⟩],
   [⟨"a", true⟩, ⟨"b", false⟩], Placement.top,
   some ⟨0, "a", false, true, 4, 4⟩⟩

/-- Concrete group used in the `show(panel)` witness: the only tab whose
panel key is `x` is disabled. -/
def disabledMatchGroup : GroupState :=
  ⟨[⟨0, "x", true, false, 3, 3⟩, ⟨1, "y", false, false, 3, 3⟩],
   [⟨"x", false⟩, ⟨"y", false⟩], Placement.top, none⟩

/-- Panel name used in the `show(panel)` witness. -/
def panelX : String :=
  "x"

/-- Panel name used in the event-order witness. -/
def panelB : String :=
  "b"

end TabGroup

namespace Tooltip

/-- A closed, enabled tooltip. -/
def ttClosed : TooltipState :=
  ⟨false, false, true, false⟩

/-- A closed, disabled tooltip. -/
def ttClosedDisabled : TooltipState :=
  ⟨false, true, true, false⟩

/-- An open, enabled tooltip. -/
def ttOpen : TooltipState :=
  ⟨true, false, false, true⟩

end Tooltip

open TabGroup in
/-- C2: calling `setActiveTab` with the tab that is already the active
tab, or with a disabled tab, leaves the tab states, panel states and
`activeTab` reference unchanged and emits no `sl-tab-hide` or
`sl-tab-show` event (and, being a total function of the state, never
throws). -/
theorem c2_setActiveTab_noop (s : GroupState) (tab : Tab) (options : Options)
    (h : (match s.activeTab with
          | some a => a.id = tab.id
          | none => False) ∨ tab.disabled = true) :
    setActiveTab s tab options = (s, []) := by
  unfold setActiveTab
  rcases h with h | h
  · cases ha : s.activeTab with
    | none => rw [ha] at h; exact absurd h (by simp)
    | some a =>
      rw [ha] at h
      simp only [ha, h, bne_self_eq_false, Bool.false_and, if_neg]
      exact if_neg (by simp)
  · simp [h]

open TabGroup in
/-- Witness for `c2_setActiveTab_noop` at a concrete input: a disabled
tab. -/
theorem c2_setActiveTab_noop_witness :
    ((match (⟨[⟨0, "a", true, false, 4, 4⟩], [⟨"a", false⟩],
        Placement.top, none⟩ : GroupState).activeTab with
      | some a => a.id = Tab.id ⟨0, "a", true, false, 4, 4⟩
      | none => False) ∨ Tab.disabled ⟨0, "a", true, false, 4, 4⟩ = true) ∧
    setActiveTab ⟨[⟨0, "a", true, false, 4, 4⟩], [⟨"a", false⟩],
        Placement.top, none⟩ ⟨0, "a", true, false, 4, 4⟩ {} =
      (⟨[⟨0, "a", true, false, 4, 4⟩], [⟨"a", false⟩],
        Placement.top, none⟩, []) :=
  ⟨by decide,
   c2_setActiveTab_noop _ _ _ (by decide)⟩

/-- C6: when `open` transitions to true while `disabled` is true, the
open-change handler stops at the guard: the state (including `open`,
the hidden body and the inactive popup) is unchanged and no step —
in particular no `sl-show` or `sl-after-show` emission, no unhiding of
the body, no popup activation — is performed. -/
theorem c6_open_while_disabled_noop (bodyHidden popupActive : Bool) :
    Tooltip.handleOpenChange ⟨true, true, bodyHidden, popupActive⟩ =
      (⟨true, true, bodyHidden, popupActive⟩, []) :=
  rfl

/-- C5 evaluation: in both the show and the hide branch of
`handleOpenChange`, the new animation runs on `this.popup.popup`, while
the only `stopAnimations` call targets `this.body`; no step stops
animations on `this.popup.popup`, so an in-flight animation on the
animated element is never cancelled there. -/
theorem c5_stop_target_mismatch :
    Tooltip.Action.animateTo Tooltip.Elem.popupPopup
        Tooltip.AnimationName.tooltipHide ∈
      (Tooltip.handleOpenChange ⟨false, false, false, true⟩).2 ∧
    Tooltip.Action.stopAnimationsOn Tooltip.Elem.body ∈
      (Tooltip.handleOpenChange ⟨false, false, false, true⟩).2 ∧
    (Tooltip.handleOpenChange ⟨false, false, false, true⟩).2.contains
      (Tooltip.Action.stopAnimationsOn Tooltip.Elem.popupPopup) = false ∧
    Tooltip.Action.animateTo Tooltip.Elem.popupPopup
        Tooltip.AnimationName.tooltipShow ∈
      (Tooltip.handleOpenChange ⟨true, false, true, false⟩).2 ∧
    (Tooltip.handleOpenChange ⟨true, false, true, false⟩).2.contains
      (Tooltip.Action.stopAnimationsOn Tooltip.Elem.popupPopup) = false := by
  decide

/-- C7 counterexample: for a disabled tooltip with `open = false`, two
consecutive `show()` calls yield zero `sl-after-show` notifications, not
the exactly one the claim demands for every tooltip. -/
theorem c7_counterexample :
    (Tooltip.showTwice Tooltip.ttClosedDisabled).2.count
      Tooltip.Action.emitAfterShow = 0 := by
  decide

/-- C7 (amended with `disabled = false`): `show()` is a no-op when
already open; otherwise it sets `open = true` and exactly one
`sl-after-show` fires, and a second immediate `show()` adds nothing, so
two consecutive calls still yield exactly one `sl-after-show`; `hide()`
behaves symmetrically with respect to `open = false` and
`sl-after-hide`. -/
theorem c7_show_hide_idempotent (s : Tooltip.TooltipState)
    (hdis : s.disabled = false) :
    (s.open' = true → Tooltip.show' s = (s, [])) ∧
    (s.open' = false →
      (Tooltip.show' s).1.open' = true ∧
      (Tooltip.show' s).2.count Tooltip.Action.emitAfterShow = 1 ∧
      Tooltip.show' (Tooltip.show' s).1 = ((Tooltip.show' s).1, []) ∧
      (Tooltip.showTwice s).2.count Tooltip.Action.emitAfterShow = 1) ∧
    (s.open' = false → Tooltip.hide' s = (s, [])) ∧
    (s.open' = true →
      (Tooltip.hide' s).1.open' = false ∧
      (Tooltip.hide' s).2.count Tooltip.Action.emitAfterHide = 1 ∧
      Tooltip.hide' (Tooltip.hide' s).1 = ((Tooltip.hide' s).1, [])) := by
  rcases s with ⟨o, d, bh, pa⟩
  cases d with
  | true => exact Bool.noConfusion hdis
  | false => cases o <;> cases bh <;> cases pa <;> decide

/-- Witness for `c7_show_hide_idempotent` at the closed enabled
tooltip. -/
theorem c7_show_hide_idempotent_witness :
    Tooltip.ttClosed.disabled = false ∧
    ((Tooltip.ttClosed.open' = true →
        Tooltip.show' Tooltip.ttClosed = (Tooltip.ttClosed, [])) ∧
     (Tooltip.ttClosed.open' = false →
        (Tooltip.show' Tooltip.ttClosed).1.open' = true ∧
        (Tooltip.show' Tooltip.ttClosed).2.count
          Tooltip.Action.emitAfterShow = 1 ∧
        Tooltip.show' (Tooltip.show' Tooltip.ttClosed).1 =
          ((Tooltip.show' Tooltip.ttClosed).1, []) ∧
        (Tooltip.showTwice Tooltip.ttClosed).2.count
          Tooltip.Action.emitAfterShow = 1) ∧
     (Tooltip.ttClosed.open' = false →
        Tooltip.hide' Tooltip.ttClosed = (Tooltip.ttClosed, [])) ∧
     (Tooltip.ttClosed.open' = true →
        (Tooltip.hide' Tooltip.ttClosed).1.open' = false ∧
        (Tooltip.hide' Tooltip.ttClosed).2.count
          Tooltip.Action.emitAfterHide = 1 ∧
        Tooltip.hide' (Tooltip.hide' Tooltip.ttClosed).1 =
          ((Tooltip.hide' Tooltip.ttClosed).1, []))) :=
  ⟨by decide, c7_show_hide_idempotent Tooltip.ttClosed (by decide)⟩

/-- C8: setting `disabled` to true while the tooltip is open triggers
the disabled watcher, which calls `hide()`: afterwards `open` is false
and an `sl-after-hide` notification is in the emitted trace. -/
theorem c8_disable_forces_close (s : Tooltip.TooltipState)
    (hopen : s.open' = true) :
    (Tooltip.handleDisabledChange { s with disabled := true }).1.open' =
      false ∧
    Tooltip.Action.emitAfterHide ∈
      (Tooltip.handleDisabledChange { s with disabled := true }).2 := by
  rcases s with ⟨o, d, bh, pa⟩
  cases o with
  | false => exact Bool.noConfusion hopen
  | true => cases d <;> cases bh <;> cases pa <;> decide

/-- Witness for `c8_disable_forces_close` at the open enabled
tooltip. -/
theorem c8_disable_forces_close_witness :
    Tooltip.ttOpen.open' = true ∧
    ((Tooltip.handleDisabledChange
        { Tooltip.ttOpen with disabled := true }).1.open' = false ∧
     Tooltip.Action.emitAfterHide ∈
       (Tooltip.handleDisabledChange
         { Tooltip.ttOpen with disabled := true }).2) :=
  ⟨by decide, c8_disable_forces_close Tooltip.ttOpen (by decide)⟩

open TabGroup in
/-- C4: keyboard navigation on a navigable tab list of length `len`
with the focus at index `i`: `Home` lands on 0 and `End` on `len - 1`;
the decrementing key (left arrow for horizontal placements in
left-to-right mode, right arrow in right-to-left mode, up arrow for
vertical placements) wraps from 0 to `len - 1` and otherwise moves to
`i - 1`; the incrementing key (the mirror image) wraps from `len - 1`
to 0 and otherwise moves to `i + 1`. -/
theorem c4_keyboard_navigation (p : Placement) (isRtl : Bool)
    (i : Int) (len : Nat) (h0 : 0 ≤ i) (h1 : i < (len : Int)) :
    nextTabIndex p isRtl Key.home i len = 0 ∧
    nextTabIndex p isRtl Key.endKey i len = (len : Int) - 1 ∧
    nextTabIndex p isRtl
        (if isHorizontalPlacement p then
          (if isRtl then Key.arrowRight else Key.arrowLeft)
         else Key.arrowUp) i len =
      (if i = 0 then (len : Int) - 1 else i - 1) ∧
    nextTabIndex p isRtl
        (if isHorizontalPlacement p then
          (if isRtl then Key.arrowLeft else Key.arrowRight)
         else Key.arrowDown) i len =
      (if i = (len : Int) - 1 then 0 else i + 1) := by
  cases p <;> cases isRtl <;>
    refine ⟨?_, ?_, ?_, ?_⟩ <;>
    simp [nextTabIndex, isHorizontalPlacement, isVerticalPlacement] <;>
    split_ifs <;> omega

open TabGroup in
/-- Witness for `c4_keyboard_navigation` on a horizontal right-to-left
group of three tabs with the focus at index 0. -/
theorem c4_keyboard_navigation_witness :
    (0 : Int) ≤ 0 ∧ (0 : Int) < (3 : Nat) ∧
    (nextTabIndex Placement.top true Key.home 0 3 = 0 ∧
     nextTabIndex Placement.top true Key.endKey 0 3 = (3 : Int) - 1 ∧
     nextTabIndex Placement.top true
        (if isHorizontalPlacement Placement.top then
          (if true then Key.arrowRight else Key.arrowLeft)
         else Key.arrowUp) 0 3 =
       (if (0 : Int) = 0 then (3 : Int) - 1 else 0 - 1) ∧
     nextTabIndex Placement.top true
        (if isHorizontalPlacement Placement.top then
          (if true then Key.arrowLeft else Key.arrowRight)
         else Key.arrowDown) 0 3 =
       (if (0 : Int) = (3 : Int) - 1 then 0 else 0 + 1)) :=
  ⟨by decide, by decide,
   c4_keyboard_navigation Placement.top true 0 3 (by decide) (by decide)⟩

open TabGroup in
/-- Helper: the state component of `setActiveTab`. -/
theorem setActiveTab_fst (s : GroupState) (tab : Tab) (options : Options) :
    (setActiveTab s tab options).1 =
      if (match s.activeTab with
          | some a => a.id != tab.id
          | none => true) && !tab.disabled then
        { s with
          slotted := s.slotted.map fun el =>
            if el.disabled then el
            else { el with active := el.id == tab.id },
          panels := s.panels.map fun el =>
            { el with active := el.name == tab.panel },
          activeTab := some tab }
      else s := by
  unfold setActiveTab
  split <;> rfl

open TabGroup in
/-- Helper: the event component of `setActiveTab`. -/
theorem setActiveTab_snd (s : GroupState) (tab : Tab) (options : Options) :
    (setActiveTab s tab options).2 =
      if (match s.activeTab with
          | some a => a.id != tab.id
          | none => true) && !tab.disabled then
        (if options.emitEvents then
          (match s.activeTab with
           | some p => [TabEvent.tabHide p.panel]
           | none => []) ++ [TabEvent.tabShow tab.panel]
         else [])
      else [] := by
  unfold setActiveTab
  split <;> rfl

open TabGroup in
/-- C9: a `setActiveTab` call that changes the active tab, with
`emitEvents`, emits the `sl-tab-hide` for the previous active tab's
panel before the `sl-tab-show` for the new tab's panel; with no previous
active tab it emits only the `sl-tab-show`. -/
theorem c9_event_order (s : GroupState) (tab : Tab) (options : Options)
    (hne : (match s.activeTab with
            | some a => a.id != tab.id
            | none => true) = true)
    (hdis : tab.disabled = false)
    (hemit : options.emitEvents = true) :
    (∀ p, s.activeTab = some p →
      (setActiveTab s tab options).2 =
        [TabEvent.tabHide p.panel, TabEvent.tabShow tab.panel]) ∧
    (s.activeTab = none →
      (setActiveTab s tab options).2 = [TabEvent.tabShow tab.panel]) := by
  rw [setActiveTab_snd]
  cases ha : s.activeTab with
  | none => simp [ha, hdis, hemit]
  | some a =>
    rw [ha] at hne
    have hne' : a.id ≠ tab.id := by simpa using (hne : (a.id != tab.id) = true)
    constructor
    · intro p hp
      injection hp with hp
      subst hp
      simp [hdis, hemit, hne']
    · intro hcontra
      exact Option.noConfusion hcontra

open TabGroup in
/-- Witness for `c9_event_order` on `eventGroup`: activating tab 1 while
tab 0 is active emits hide `a` then show `b`. -/
theorem c9_event_order_witness :
    ((match eventGroup.activeTab with
      | some a => a.id != Tab.id ⟨1, "b", false, false, 4, 4⟩
      | none => true) = true) ∧
    Tab.disabled ⟨1, "b", false, false, 4, 4⟩ = false ∧
    Options.emitEvents {} = true ∧
    ((∀ p, eventGroup.activeTab = some p →
       (setActiveTab eventGroup ⟨1, "b", false, false, 4, 4⟩ {}).2 =
         [TabEvent.tabHide p.panel, TabEvent.tabShow panelB]) ∧
     (eventGroup.activeTab = none →
       (setActiveTab eventGroup ⟨1, "b", false, false, 4, 4⟩ {}).2 =
         [TabEvent.tabShow panelB])) :=
  ⟨by decide, by decide, by decide,
   c9_event_order eventGroup ⟨1, "b", false, false, 4, 4⟩ {}
     (by decide) (by decide) (by decide)⟩

open TabGroup in
/-- C10: `show(panelName)` is a silent no-op whenever every slotted tab
whose panel key equals `panelName` is disabled — in particular when no
tab matches at all — because the `this.tabs` cache it searches excludes
disabled tabs. -/
theorem c10_show_all_matches_disabled_noop (s : GroupState) (panel : String)
    (h : ∀ t ∈ s.slotted, t.panel = panel → t.disabled = true) :
    showPanel s panel = (s, []) := by
  unfold showPanel
  cases hf : (tabs s).find? (fun el => el.panel == panel) with
  | none => rfl
  | some tab =>
    exfalso
    have hmem : tab ∈ tabs s := List.mem_of_find?_eq_some hf
    have hpan := List.find?_some hf
    have hmem' : tab ∈ s.slotted ∧ (!tab.disabled) = true := by
      simpa [tabs] using List.mem_filter.mp hmem
    have hdis := h tab hmem'.1 (by simpa using hpan)
    rw [hdis] at hmem'
    exact Bool.noConfusion hmem'.2

open TabGroup in
/-- Witness for `c10_show_all_matches_disabled_noop` on
`disabledMatchGroup`: the only tab for panel `x` is disabled, so
`show('x')` changes nothing and emits nothing. -/
theorem c10_show_all_matches_disabled_noop_witness :
    (∀ t ∈ disabledMatchGroup.slotted,
      t.panel = panelX → t.disabled = true) ∧
    showPanel disabledMatchGroup panelX = (disabledMatchGroup, []) :=
  ⟨by decide,
   c10_show_all_matches_disabled_noop disabledMatchGroup panelX (by decide)⟩

open TabGroup in
/-- C1 counterexample: a single `setActiveTab` call whose tab argument
is a non-disabled tab that is not one of the group's slotted tabs (the
claim allows any tab argument) leaves no tab of the tabs list active
while activating the panel matching the foreign tab's panel key — so a
panel is active although no tab is. -/
theorem c1_counterexample :
    tabPanelInvariant (setActiveTab cexGroup foreignTab {}).1 = false := by
  decide

open TabGroup in
/-- Helper: `setActiveTab` with a tab drawn from the slotted list
preserves the coupling invariant. -/
theorem strongInv_setActiveTab (s : GroupState) (tab : Tab)
    (options : Options) (hmem : tab ∈ s.slotted) (h : strongInv s) :
    strongInv (setActiveTab s tab options).1 := by
  rw [setActiveTab_fst]
  split
  case isTrue hguard =>
    have hdis : tab.disabled = false := by
      have := (Bool.and_eq_true _ _).mp hguard
      simpa using this.2
    right
    refine ⟨tab, rfl, ?_, ?_, ?_⟩
    · intro t ht htd
      rcases List.mem_map.mp ht with ⟨u, hu, rfl⟩
      by_cases hud : u.disabled = true
      · rw [if_pos hud] at htd ⊢
        rw [htd] at hud
        exact Bool.noConfusion hud
      · rw [if_neg hud]
    · refine ⟨{ tab with active := tab.id == tab.id }, ?_, rfl, rfl, hdis⟩
      refine List.mem_map.mpr ⟨tab, hmem, ?_⟩
      rw [hdis]
      simp
    · intro p hp
      rcases List.mem_map.mp hp with ⟨q, hq, rfl⟩
      rfl
  case isFalse =>
    exact h

open TabGroup in
/-- Helper: a by-identity `setActiveTab` call preserves the coupling
invariant. -/
theorem strongInv_setActiveTabById (s : GroupState) (i : Nat)
    (options : Options) (h : strongInv s) :
    strongInv (setActiveTabById s i options).1 := by
  unfold setActiveTabById
  cases hf : s.slotted.find? (fun el => el.id == i) with
  | none => exact h
  | some tab =>
    exact strongInv_setActiveTab s tab options
      (List.mem_of_find?_eq_some hf) h

open TabGroup in
/-- Helper: `setActiveTab` only rewrites `active` flags, so the slotted
identities are unchanged. -/
theorem idsOf_setActiveTab (s : GroupState) (tab : Tab)
    (options : Options) :
    idsOf (setActiveTab s tab options).1 = idsOf s := by
  rw [setActiveTab_fst]
  split
  · unfold idsOf
    simp only [List.map_map]
    apply List.map_congr_left
    intro u hu
    by_cases hud : u.disabled = true
    · simp [Function.comp, hud]
    · simp [Function.comp, hud]
  · rfl

open TabGroup in
/-- Helper: by-identity calls leave the slotted identities unchanged. -/
theorem idsOf_setActiveTabById (s : GroupState) (i : Nat)
    (options : Options) :
    idsOf (setActiveTabById s i options).1 = idsOf s := by
  unfold setActiveTabById
  cases hf : s.slotted.find? (fun el => el.id == i) with
  | none => rfl
  | some tab => exact idsOf_setActiveTab s tab options

open TabGroup in
/-- Helper: the coupling invariant and the distinctness of identities
are preserved by any sequence of by-identity calls. -/
theorem strongInv_applyCalls (calls : List (Nat × Options))
    (s : GroupState) (h : strongInv s) (hnd : (idsOf s).Nodup) :
    strongInv (applyCalls s calls) ∧ (idsOf (applyCalls s calls)).Nodup := by
  induction calls generalizing s with
  | nil => exact ⟨h, hnd⟩
  | cons c rest ih =>
    have h1 := strongInv_setActiveTabById s c.1 c.2 h
    have h2 : (idsOf (setActiveTabById s c.1 c.2).1).Nodup := by
      rw [idsOf_setActiveTabById]
      exact hnd
    exact ih _ h1 h2

open TabGroup in
/-- Helper: in a list of tabs with pairwise distinct identities in which
a tab is active exactly when its identity is `k`, at most one tab is
active. -/
theorem filter_active_length_le_one (c : List Tab) (k : Nat)
    (hnd : (c.map Tab.id).Nodup)
    (hact : ∀ t ∈ c, t.active = (t.id == k)) :
    ((c.filter fun el => el.active).length ≤ 1) := by
  induction c with
  | nil => simp
  | cons hd tl ih =>
    rw [List.map_cons, List.nodup_cons] at hnd
    by_cases hh : hd.active = true
    · have hk : hd.id = k := by
        have := (hact hd (by simp)).symm.trans hh
        simpa using this
      have htl : tl.filter (fun el => el.active) = [] := by
        apply List.filter_eq_nil_iff.mpr
        intro t ht
        have hne : t.id ≠ k := by
          intro he
          exact hnd.1 (List.mem_map.mpr ⟨t, ht, (he.trans hk.symm)⟩)
        have := hact t (by simp [ht])
        simp [this, hne]
      simp [List.filter_cons, hh, htl]
    · have hh' : hd.active = false := by simpa using hh
      have := ih hnd.2 (fun t ht => hact t (by simp [ht]))
      simpa [List.filter_cons, hh'] using this

open TabGroup in
/-- Helper: under the same hypotheses, with a witness tab of identity
`k` and panel `pan` in the list, the first active tab found has panel
`pan`. -/
theorem find?_active_of_key (c : List Tab) (k : Nat) (pan : String)
    (hnd : (c.map Tab.id).Nodup)
    (hact : ∀ t ∈ c, t.active = (t.id == k))
    (t₀ : Tab) (hmem : t₀ ∈ c) (hid : t₀.id = k) (hpan : t₀.panel = pan) :
    ∃ t, c.find? (fun el => el.active) = some t ∧ t.panel = pan := by
  induction c with
  | nil => exact absurd hmem (List.not_mem_nil t₀)
  | cons hd tl ih =>
    rw [List.map_cons, List.nodup_cons] at hnd
    by_cases hh : hd.active = true
    · refine ⟨hd, by simp [List.find?_cons, hh], ?_⟩
      have hk : hd.id = k := by
        have := (hact hd (by simp)).symm.trans hh
        simpa using this
      rcases List.mem_cons.mp hmem with rfl | hmem'
      · exact hpan
      · exfalso
        exact hnd.1 (List.mem_map.mpr ⟨t₀, hmem', (hid.trans hk.symm)⟩)
    · have hh' : hd.active = false := by simpa using hh
      have hne : hd.id ≠ k := by
        intro he
        have := hact hd (by simp)
        rw [hh', he] at this
        simp at this
      have hmem' : t₀ ∈ tl := by
        rcases List.mem_cons.mp hmem with rfl | hmem'
        · exact absurd hid hne
        · exact hmem'
      have := ih hnd.2 (fun t ht => hact t (by simp [ht])) hmem'
      rcases this with ⟨t, hft, htp⟩
      exact ⟨t, by simp [List.find?_cons, hh', hft], htp⟩

open TabGroup in
/-- Helper: the coupling invariant, with distinct identities, implies
the tab/panel invariant of the specification. -/
theorem strongInv_imp_invariant (s : GroupState)
    (hnd : (idsOf s).Nodup) (h : strongInv s) :
    tabPanelInvariant s = true := by
  have hndc : ((tabs s).map Tab.id).Nodup := by
    have hsub : List.Sublist ((tabs s).map Tab.id) (idsOf s) :=
      (List.filter_sublist s.slotted).map Tab.id
    exact hnd.sublist hsub
  unfold tabPanelInvariant
  rcases h with ⟨hat, hta, hpa⟩ | ⟨a, hat, hflags, ⟨t₀, ht₀m, ht₀id, ht₀p, ht₀d⟩, hpan⟩
  · have hcact : ∀ t ∈ tabs s, t.active = false := fun t ht =>
      hta t (List.mem_filter.mp ht).1
    have hfil : (tabs s).filter (fun el => el.active) = [] :=
      List.filter_eq_nil_iff.mpr (fun t ht => by simp [hcact t ht])
    have hfind : getActiveTab s = none := by
      unfold getActiveTab
      exact List.find?_eq_none.mpr (fun t ht => by simp [hcact t ht])
    rw [hfil, hfind, Bool.and_eq_true]
    refine ⟨rfl, ?_⟩
    rw [List.all_eq_true]
    intro p hp
    rw [hpa p hp]
    rfl
  · have hcact : ∀ t ∈ tabs s, t.active = (t.id == a.id) := by
      intro t ht
      have hm := List.mem_filter.mp ht
      exact hflags t hm.1 (by simpa using hm.2)
    have ht₀c : t₀ ∈ tabs s :=
      List.mem_filter.mpr ⟨ht₀m, by simp [ht₀d]⟩
    have hlen := filter_active_length_le_one (tabs s) a.id hndc hcact
    obtain ⟨t, hft, htp⟩ :=
      find?_active_of_key (tabs s) a.id a.panel hndc hcact t₀ ht₀c ht₀id ht₀p
    have hfind : getActiveTab s = some t := hft
    rw [hfind, Bool.and_eq_true]
    refine ⟨decide_eq_true hlen, ?_⟩
    rw [List.all_eq_true]
    intro p hp
    rw [hpan p hp]
    show ((p.name == a.panel) == (p.name == t.panel)) = true
    rw [htp]
    cases h : (p.name == a.panel) <;> rfl

open TabGroup in
/-- C1 (amended): starting from the initial state in which no tab and no
panel is active and no `activeTab` reference is set, and with pairwise
distinct slotted tab identities, after any sequence of `setActiveTab`
calls whose tab arguments are the group's own slotted tabs (any
options), at most one tab of the tabs list has `active = true`, a panel
has `active = true` exactly when its name equals the active tab's panel
key, and when no tab is active no panel is active. -/
theorem c1_invariant_amended (s : GroupState)
    (calls : List (Nat × Options)) (hclean : cleanState s)
    (hnd : (idsOf s).Nodup) :
    tabPanelInvariant (applyCalls s calls) = true := by
  have h0 : strongInv s := Or.inl ⟨hclean.2.2, hclean.1, hclean.2.1⟩
  obtain ⟨h1, h2⟩ := strongInv_applyCalls calls s h0 hnd
  exact strongInv_imp_invariant _ h2 h1

open TabGroup in
/-- Witness for `c1_invariant_amended` on `demoGroup` with the call
sequence `demoCalls`. -/
theorem c1_invariant_amended_witness :
    cleanState demoGroup ∧ (idsOf demoGroup).Nodup ∧
    tabPanelInvariant (applyCalls demoGroup demoCalls) = true :=
  ⟨by decide, by decide,
   c1_invariant_amended demoGroup demoCalls (by decide) (by decide)⟩

open TabGroup in
/-- Helper: `indexOf` of a member is non-negative. -/
theorem indexOfTab_nonneg (l : List Tab) (t : Tab) (hmem : t ∈ l) :
    0 ≤ indexOfTab l t := by
  induction l with
  | nil => exact absurd hmem (List.not_mem_nil t)
  | cons hd tl ih =>
    unfold indexOfTab
    by_cases hh : (hd.id == t.id) = true
    · rw [if_pos hh]
    · rw [if_neg hh]
      have hmem' : t ∈ tl := by
        rcases List.mem_cons.mp hmem with rfl | h'
        · exact absurd (by simp) hh
        · exact h'
      have := ih hmem'
      show 0 ≤ if indexOfTab tl t < 0 then -1 else indexOfTab tl t + 1
      split <;> omega

open TabGroup in
/-- Helper: slicing up to the first `===` index of a member is taking
the elements that precede it in the list. -/
theorem sliceUpTo_indexOfTab (l : List Tab) (t : Tab) (hmem : t ∈ l) :
    sliceUpTo l (indexOfTab l t) = l.takeWhile fun el => el.id != t.id := by
  induction l with
  | nil => exact absurd hmem (List.not_mem_nil t)
  | cons hd tl ih =>
    by_cases hh : (hd.id == t.id) = true
    · have h0 : indexOfTab (hd :: tl) t = 0 := by
        unfold indexOfTab
        rw [if_pos hh]
      rw [h0]
      unfold sliceUpTo
      rw [if_neg (by omega)]
      have hbne : (hd.id != t.id) = false := by
        simp only [bne, hh, Bool.not_true]
      simp [List.takeWhile_cons, hbne]
    · have hmem' : t ∈ tl := by
        rcases List.mem_cons.mp hmem with rfl | h'
        · exact absurd (by simp) hh
        · exact h'
      have hnn := indexOfTab_nonneg tl t hmem'
      have hstep : indexOfTab (hd :: tl) t = indexOfTab tl t + 1 := by
        show (if (hd.id == t.id) = true then (0 : Int)
              else
                let r := indexOfTab tl t
                if r < 0 then -1 else r + 1) = indexOfTab tl t + 1
        rw [if_neg hh]
        show (if indexOfTab tl t < 0 then (-1 : Int)
              else indexOfTab tl t + 1) = indexOfTab tl t + 1
        rw [if_neg (by omega)]
      rw [hstep]
      unfold sliceUpTo
      rw [if_neg (by omega)]
      have htn : (indexOfTab tl t + 1).toNat = (indexOfTab tl t).toNat + 1 := by
        omega
      rw [htn, List.take_succ_cons]
      have hbne : (hd.id != t.id) = true := by
        simp only [bne, Bool.not_eq_true'] at hh ⊢
        simpa using hh
      have ih' : List.take (indexOfTab tl t).toNat tl =
          tl.takeWhile fun el => el.id != t.id := by
        have h2 := ih hmem'
        unfold sliceUpTo at h2
        rwa [if_neg (by omega)] at h2
      simp [List.takeWhile_cons, hbne, ih']

open TabGroup in
/-- Helper: the `reduce` of `repositionIndicator` sums the widths and
heights of the reduced tabs. -/
theorem foldl_offset (l : List Tab) (init : Offset) :
    l.foldl (fun previous current =>
      { left := previous.left + current.clientWidth
        top := previous.top + current.clientHeight }) init =
      { left := init.left + (l.map Tab.clientWidth).sum
        top := init.top + (l.map Tab.clientHeight).sum } := by
  induction l generalizing init with
  | nil => cases init; simp
  | cons hd tl ih =>
    rw [List.foldl_cons, ih]
    simp only [List.map_cons, List.sum_cons, Offset.mk.injEq]
    omega

open TabGroup in
/-- Helper: the tab found by `getActiveTab` is one of the slotted
tabs. -/
theorem mem_slotted_of_getActiveTab (s : GroupState) (t : Tab)
    (h : getActiveTab s = some t) : t ∈ s.slotted := by
  unfold getActiveTab at h
  exact (List.mem_filter.mp (List.mem_of_find?_eq_some h)).1

open TabGroup in
/-- Helper: with an active tab, `repositionIndicator` computes exactly
the style the specification describes. -/
theorem repositionIndicator_eq_spec (s : GroupState) (isRtl : Bool)
    (t : Tab) (ht : getActiveTab s = some t) :
    repositionIndicator s isRtl = some (specIndicatorStyle s isRtl t) := by
  have hmem : t ∈ s.slotted := mem_slotted_of_getActiveTab s t ht
  have hslice := sliceUpTo_indexOfTab s.slotted t hmem
  unfold repositionIndicator
  rw [ht]
  show (match s.placement with
    | Placement.top | Placement.bottom =>
      some { width := Dim.px t.clientWidth, height := Dim.auto
             transform := Translate.x
               (if isRtl then
                 -1 * (((sliceUpTo (getAllTabs s)
                   (indexOfTab (getAllTabs s) t)).foldl
                     (fun previous current =>
                       { left := previous.left + current.clientWidth
                         top := previous.top + current.clientHeight })
                     ({ left := 0, top := 0 } : Offset)).left : Int)
                else (((sliceUpTo (getAllTabs s)
                   (indexOfTab (getAllTabs s) t)).foldl
                     (fun previous current =>
                       { left := previous.left + current.clientWidth
                         top := previous.top + current.clientHeight })
                     ({ left := 0, top := 0 } : Offset)).left : Int)) }
    | Placement.start | Placement.end_ =>
      some { width := Dim.auto, height := Dim.px t.clientHeight
             transform := Translate.y
               ((((sliceUpTo (getAllTabs s)
                 (indexOfTab (getAllTabs s) t)).foldl
                   (fun previous current =>
                     { left := previous.left + current.clientWidth
                       top := previous.top + current.clientHeight })
                   ({ left := 0, top := 0 } : Offset)).top : Int)) }) =
    some (specIndicatorStyle s isRtl t)
  unfold getAllTabs at hslice ⊢
  rw [hslice, foldl_offset]
  unfold specIndicatorStyle
  cases hpl : s.placement <;> cases isRtl <;>
    simp [isHorizontalPlacement, getAllTabs, hpl]

open TabGroup in
/-- C3: with an active tab, `syncIndicator` shows the indicator with its
extent along the placement axis equal to the active tab's measured
extent and its translation along that axis equal to the sum of the
measured extents of all tabs preceding the active tab in DOM order
(negated in right-to-left horizontal mode); with no active tab the
indicator is hidden. -/
theorem c3_indicator_geometry (s : GroupState) (isRtl : Bool) :
    (getActiveTab s = none → syncIndicator s isRtl = IndicatorState.hidden) ∧
    (∀ t, getActiveTab s = some t →
      syncIndicator s isRtl =
        IndicatorState.shown (specIndicatorStyle s isRtl t)) := by
  constructor
  · intro h
    unfold syncIndicator
    rw [h]
  · intro t ht
    unfold syncIndicator
    rw [ht, repositionIndicator_eq_spec s isRtl t ht]

open TabGroup in
/-- Witness for `c3_indicator_geometry` on `indicatorGroup`: the active
tab (width 11) is preceded by one disabled tab of width 5, so the
indicator is 11 px wide and translated by 5 px. -/
theorem c3_indicator_geometry_witness :
    getActiveTab indicatorGroup = some ⟨1, "b", false, true, 11, 13⟩ ∧
    specIndicatorStyle indicatorGroup false ⟨1, "b", false, true, 11, 13⟩ =
      ⟨Dim.px 11, Dim.auto, Translate.x 5⟩ ∧
    syncIndicator indicatorGroup false =
      IndicatorState.shown
        (specIndicatorStyle indicatorGroup false ⟨1, "b", false, true, 11, 13⟩) :=
  ⟨by decide, by decide,
   (c3_indicator_geometry indicatorGroup false).2
     ⟨1, "b", false, true, 11, 13⟩ (by decide)⟩
